import Mathlib

/-!
Verification development for the scheduling backend (availability,
event types, bookings).

The JavaScript service and model layers are shallowly embedded as pure
Lean functions over an explicit database state.  Conventions:

* SQL tables become `List`s of record structures stored in a `DB` state;
  `SERIAL` primary keys become explicit `next…Id` counters; rows produced
  by `INSERT` are appended at the end, so "first row returned" of an
  unordered `SELECT` is modelled as the first match in insertion order.
* Booking `start_time`/`end_time` are `TIMESTAMP`s compared both by SQL and
  by `new Date(...)` comparisons; both orders agree with the chronological
  order, so they are modelled as `Nat` instants.
* Availability-interval `start_time`/`end_time` are `TIME` strings which the
  service compares with JavaScript string comparison (lexicographic); they
  are modelled as `String` with its lexicographic order.
* `throw new CustomError(message, status)` becomes `Except CustomError`;
  every service operation returns the (possibly unchanged) database state
  together with the `Except` result, mirroring the fact that a thrown
  validation error happens before any SQL statement runs, and that
  multi-statement writes run inside a transaction that rolls back on error.
-/

namespace Cal

/-- `CustomError` from `core/customError.js`: a message and an HTTP status. -/
structure CustomError where
  message : String
  status : Nat
deriving Repr, DecidableEq

/-- A row of the `bookings` table (`setupDatabase.js`). -/
structure Booking where
  id : Nat
  event_type_id : Nat
  client_email : String
  name : String
  additional_notes : Option String
  start_time : Nat
  end_time : Nat
  date : String
  meeting_link : Option String
  booking_status : String
deriving Repr, DecidableEq

/-- A row of the `event_types` table.  `url_slug` is always populated on
insert (`url_slug || name` in the model), so it is a plain `String`. -/
structure EventType where
  id : Nat
  name : String
  description : Option String
  duration : Nat
  url_slug : String
  user_id : Option Nat
  availability_id : Option Nat
deriving Repr, DecidableEq

/-- A row of the `availability` table. -/
structure Availability where
  id : Nat
  name : String
  timezone : String
deriving Repr, DecidableEq

/-- A row of the `availability_interval` table.  `day_of_week` is an `Int`
because the service range-checks arbitrary JavaScript numbers. -/
structure AvailInterval where
  id : Nat
  availability_id : Nat
  day_of_week : Int
  start_time : String
  end_time : String
deriving Repr, DecidableEq

/-- An interval as submitted in a request payload (no ids yet). -/
structure IntervalInput where
  day_of_week : Int
  start_time : String
  end_time : String
deriving Repr, DecidableEq

/-- The database state: the four tables plus the `SERIAL` id counters. -/
structure DB where
  bookings : List Booking
  eventTypes : List EventType
  availabilities : List Availability
  intervals : List AvailInterval
  nextBookingId : Nat
  nextEventTypeId : Nat
  nextAvailabilityId : Nat
  nextIntervalId : Nat
deriving Repr, DecidableEq

/-- Status of an `Except CustomError` result, if it is an error. -/
def errStatus {α : Type} : Except CustomError α → Option Nat
  | .error e => some e.status
  | .ok _ => none

/-- Whether an `Except CustomError` result is a success. -/
def isOk {α : Type} : Except CustomError α → Bool
  | .error _ => false
  | .ok _ => true

/-- One row's condition in the `checkConflict` query of
`BookingsModel.checkConflict`: same event type and date, not cancelled,
one of the three OR'd time conditions, and not the excluded id. -/
def conflictRowMatches (eventTypeId : Nat) (date : String)
    (startTime endTime : Nat) (excludeId : Option Nat) (b : Booking) : Bool :=
  b.event_type_id == eventTypeId && b.date == date &&
    b.booking_status != "cancelled" &&
    ((decide (b.start_time ≤ startTime) && decide (b.end_time > startTime)) ||
     (decide (b.start_time < endTime) && decide (b.end_time ≥ endTime)) ||
     (decide (b.start_time ≥ startTime) && decide (b.end_time ≤ endTime))) &&
    (match excludeId with
     | some ex => b.id != ex
     | none => true)

/-- `BookingsModel.checkConflict`: does any stored booking satisfy the
conflict query's `WHERE` clause? -/
def checkConflict (bookings : List Booking) (eventTypeId : Nat) (date : String)
    (startTime endTime : Nat) (excludeId : Option Nat) : Bool :=
  bookings.any (conflictRowMatches eventTypeId date startTime endTime excludeId)

/-- The half-open overlap predicate of the specification:
`candidate.start < existing.end AND candidate.end > existing.start`,
stated here between two stored bookings. -/
def overlapB (b1 b2 : Booking) : Bool :=
  decide (b1.start_time < b2.end_time) && decide (b2.start_time < b1.end_time)

/-- JavaScript string comparison `a < b` on TIME strings: lexicographic
order on the character sequences. -/
def timeLt (a b : String) : Bool := decide (a.data < b.data)

/-- JavaScript string comparison `a >= b`, which is the negation of `a < b`. -/
def timeGe (a b : String) : Bool := !(timeLt a b)

/-- `EventTypeModel.findById`: `SELECT * FROM event_types WHERE id = $1`. -/
def EventTypeModel.findById (db : DB) (id : Nat) : Option EventType :=
  db.eventTypes.find? (fun et => et.id == id)

/-- `EventTypeModel.findByName`: `SELECT * FROM event_types WHERE name = $1`. -/
def EventTypeModel.findByName (db : DB) (name : String) : Option EventType :=
  db.eventTypes.find? (fun et => et.name == name)

/-- `EventTypeModel.findBySlug`: the single query
`SELECT * FROM event_types WHERE url_slug = $1 OR name = $1`, taking
`rows[0]`, i.e. the first matching row in table (insertion) order. -/
def EventTypeModel.findBySlug (db : DB) (slug : String) : Option EventType :=
  db.eventTypes.find? (fun et => et.url_slug == slug || et.name == slug)

/-- Payload of `BookingsService.createBooking` after body validation;
`booking_status` carries the zod default `"confirmed"` when omitted. -/
structure BookingRequest where
  event_type_id : Nat
  client_email : String
  name : String
  additional_notes : Option String := none
  start_time : Nat
  end_time : Nat
  date : String
  meeting_link : Option String := none
  booking_status : String := "confirmed"
deriving Repr, DecidableEq

/-- `BookingsModel.createBooking`: the plain `INSERT ... RETURNING *`. -/
def BookingsModel.createBooking (db : DB) (req : BookingRequest) : DB × Booking :=
  let b : Booking :=
    { id := db.nextBookingId
      event_type_id := req.event_type_id
      client_email := req.client_email
      name := req.name
      additional_notes := req.additional_notes
      start_time := req.start_time
      end_time := req.end_time
      date := req.date
      meeting_link := req.meeting_link
      booking_status := req.booking_status }
  ({ db with bookings := db.bookings ++ [b], nextBookingId := db.nextBookingId + 1 }, b)

/-- `BookingsService.createBooking`: existence check on the event type,
then `checkConflict`, then the `start_time >= end_time` ordering check,
then the insert — in exactly that order. -/
def BookingsService.createBooking (db : DB) (req : BookingRequest) :
    DB × Except CustomError Booking :=
  match EventTypeModel.findById db req.event_type_id with
  | none => (db, .error ⟨"Event type not found", 404⟩)
  | some _ =>
    if checkConflict db.bookings req.event_type_id req.date req.start_time
        req.end_time none then
      (db, .error ⟨"Booking time conflicts with an existing booking", 409⟩)
    else if req.end_time ≤ req.start_time then
      (db, .error ⟨"Start time must be before end time", 400⟩)
    else
      let (db', b) := BookingsModel.createBooking db req
      (db', .ok b)

/-- Partial-update payload for a booking.  `event_type_id` appears because
`BookingsService.updateBooking` reads `data.event_type_id` for its conflict
guard and merge, even though `BookingsModel.updateBooking` never includes
`event_type_id` in its column list (so it is never written). -/
structure BookingUpdate where
  client_email : Option String := none
  name : Option String := none
  additional_notes : Option String := none
  start_time : Option Nat := none
  end_time : Option Nat := none
  date : Option String := none
  meeting_link : Option String := none
  booking_status : Option String := none
  event_type_id : Option Nat := none
deriving Repr, DecidableEq

/-- Does the payload carry at least one column that
`BookingsModel.updateBooking` would put in its `SET` list? -/
def BookingUpdate.hasModelField (u : BookingUpdate) : Bool :=
  u.client_email.isSome || u.name.isSome || u.additional_notes.isSome ||
    u.start_time.isSome || u.end_time.isSome || u.date.isSome ||
    u.meeting_link.isSome || u.booking_status.isSome

/-- Apply the `SET` clauses of `BookingsModel.updateBooking` to one row. -/
def BookingsModel.applyUpdate (b : Booking) (u : BookingUpdate) : Booking :=
  { b with
    client_email := u.client_email.getD b.client_email
    name := u.name.getD b.name
    additional_notes :=
      match u.additional_notes with
      | some v => some v
      | none => b.additional_notes
    start_time := u.start_time.getD b.start_time
    end_time := u.end_time.getD b.end_time
    date := u.date.getD b.date
    meeting_link :=
      match u.meeting_link with
      | some v => some v
      | none => b.meeting_link
    booking_status := u.booking_status.getD b.booking_status }

/-- `BookingsModel.updateBooking`: throws (`.error`) when no updatable field
is present; returns `none` when the `WHERE id` clause matches no row. -/
def BookingsModel.updateBooking (db : DB) (id : Nat) (u : BookingUpdate) :
    DB × Except String (Option Booking) :=
  if !u.hasModelField then
    (db, .error "No fields to update")
  else
    match db.bookings.find? (fun b => b.id == id) with
    | none => (db, .ok none)
    | some b =>
      ({ db with
          bookings := db.bookings.map (fun x =>
            if x.id == id then BookingsModel.applyUpdate x u else x) },
        .ok (some (BookingsModel.applyUpdate b u)))

/-- `BookingsService.updateBooking`: 404 when the booking does not exist;
conflict re-check with the merged values (excluding this booking's own id)
only when one of `start_time`, `end_time`, `date`, `event_type_id` is in the
payload; then the time-ordering validation using the existing counterpart
when only one side changes; then the model update. -/
def BookingsService.updateBooking (db : DB) (id : Nat) (u : BookingUpdate) :
    DB × Except CustomError Booking :=
  match db.bookings.find? (fun b => b.id == id) with
  | none => (db, .error ⟨"Booking not found", 404⟩)
  | some existing =>
    if (u.start_time.isSome || u.end_time.isSome ||
          u.date.isSome || u.event_type_id.isSome) &&
        checkConflict db.bookings
          (u.event_type_id.getD existing.event_type_id)
          (u.date.getD existing.date)
          (u.start_time.getD existing.start_time)
          (u.end_time.getD existing.end_time)
          (some id) then
      (db, .error ⟨"Updated booking time conflicts with an existing booking", 409⟩)
    else if (match u.start_time, u.end_time with
             | some s, some e => decide (e ≤ s)
             | some s, none => decide (existing.end_time ≤ s)
             | none, some e => decide (e ≤ existing.start_time)
             | none, none => false) then
      (db, .error ⟨"Start time must be before end time", 400⟩)
    else
      match BookingsModel.updateBooking db id u with
      | (db', .error _) => (db', .error ⟨"Failed to update booking: No fields to update", 500⟩)
      | (db', .ok none) => (db', .error ⟨"Failed to update booking", 500⟩)
      | (db', .ok (some b)) => (db', .ok b)

/-- `BookingsService.deleteBooking`: 404 when absent, else the model's
`DELETE ... WHERE id = $1`. -/
def BookingsService.deleteBooking (db : DB) (id : Nat) :
    DB × Except CustomError Booking :=
  match db.bookings.find? (fun b => b.id == id) with
  | none => (db, .error ⟨"Booking not found", 404⟩)
  | some b =>
    ({ db with bookings := db.bookings.filter (fun x => x.id != id) }, .ok b)

/-- Payload of `AvailabilityService.createAvailability`; the model applies
the defaults `timezone = 'UTC'` and `intervals = []`. -/
structure AvailabilityCreate where
  name : String
  timezone : String := "UTC"
  intervals : Option (List IntervalInput) := none
deriving Repr, DecidableEq

/-- Partial-update payload for an availability. -/
structure AvailabilityUpdate where
  name : Option String := none
  timezone : Option String := none
  intervals : Option (List IntervalInput) := none
deriving Repr, DecidableEq

/-- The rows the interval-insert loop appends when every `INSERT` succeeds:
each submitted interval becomes a row with the next serial id. -/
def AvailabilityModel.insertIntervals (availabilityId : Nat) (nextId : Nat) :
    List IntervalInput → List AvailInterval
  | [] => []
  | iv :: rest =>
    ⟨nextId, availabilityId, iv.day_of_week, iv.start_time, iv.end_time⟩ ::
      AvailabilityModel.insertIntervals availabilityId (nextId + 1) rest

/-- Two rows collide on the schema's
`UNIQUE(availability_id, day_of_week, start_time, end_time)` key. -/
def sameIntervalKey (x row : AvailInterval) : Bool :=
  x.availability_id == row.availability_id &&
    x.day_of_week == row.day_of_week &&
    x.start_time == row.start_time &&
    x.end_time == row.end_time

/-- The interval-insert loop shared by the availability model's create and
update, run against the current interval table: each `INSERT` appends a row
with the next serial id, and raises a unique violation (`none`, making the
surrounding transaction roll back) when the row's
`(availability_id, day_of_week, start_time, end_time)` key already exists. -/
def AvailabilityModel.insertIntervalsT (availabilityId : Nat) (nextId : Nat) :
    List IntervalInput → List AvailInterval → Option (List AvailInterval)
  | [], table => some table
  | iv :: rest, table =>
    let row : AvailInterval :=
      ⟨nextId, availabilityId, iv.day_of_week, iv.start_time, iv.end_time⟩
    if table.any (fun x => sameIntervalKey x row) then
      none
    else
      AvailabilityModel.insertIntervalsT availabilityId (nextId + 1) rest
        (table ++ [row])

/-- `AvailabilityModel.findById` (ignoring the attached interval list,
which other operations re-read from the interval table). -/
def AvailabilityModel.findById (db : DB) (id : Nat) : Option Availability :=
  db.availabilities.find? (fun a => a.id == id)

/-- `AvailabilityModel.createAvailability`: one transaction inserting the
availability row and then each interval row; a unique violation on any
interval insert rolls the whole transaction back (`none`). -/
def AvailabilityModel.createAvailability (db : DB) (p : AvailabilityCreate) :
    Option (DB × Availability) :=
  let a : Availability := ⟨db.nextAvailabilityId, p.name, p.timezone⟩
  let ivs := p.intervals.getD []
  match AvailabilityModel.insertIntervalsT a.id db.nextIntervalId ivs db.intervals with
  | none => none
  | some table =>
    some ({ db with
        availabilities := db.availabilities ++ [a]
        intervals := table
        nextAvailabilityId := db.nextAvailabilityId + 1
        nextIntervalId := db.nextIntervalId + ivs.length }, a)

/-- The validation loop of `AvailabilityService.createAvailability` and
`updateAvailability`: first failing interval determines the error, a
`day_of_week` outside `[1,7]` checked before `start_time >= end_time`. -/
def AvailabilityService.validateIntervals : List IntervalInput → Option CustomError
  | [] => none
  | iv :: rest =>
    if iv.day_of_week < 1 || iv.day_of_week > 7 then
      some ⟨"Day of week must be between 1 and 7", 400⟩
    else if timeGe iv.start_time iv.end_time then
      some ⟨"Start time must be before end time", 400⟩
    else
      AvailabilityService.validateIntervals rest

/-- `AvailabilityService.createAvailability`: validates the intervals when
the payload has any, then calls the model; a model-level unique violation
is wrapped into a 500 with nothing persisted (rollback). -/
def AvailabilityService.createAvailability (db : DB) (p : AvailabilityCreate) :
    DB × Except CustomError Availability :=
  match p.intervals with
  | some ivs =>
    match AvailabilityService.validateIntervals ivs with
    | some e => (db, .error e)
    | none =>
      match AvailabilityModel.createAvailability db p with
      | some (db', a) => (db', .ok a)
      | none => (db, .error ⟨"Failed to create availability", 500⟩)
  | none =>
    match AvailabilityModel.createAvailability db p with
    | some (db', a) => (db', .ok a)
    | none => (db, .error ⟨"Failed to create availability", 500⟩)

/-- `AvailabilityModel.updateAvailability`: in one transaction, update the
scalar columns that are present, and when `intervals` is supplied delete
every interval of this availability and insert the submitted ones; a
unique violation on any insert rolls the whole transaction back (`none`),
undoing the scalar updates too. -/
def AvailabilityModel.updateAvailability (db : DB) (id : Nat)
    (u : AvailabilityUpdate) : Option DB :=
  let db1 :=
    if u.name.isSome || u.timezone.isSome then
      { db with
          availabilities := db.availabilities.map (fun a =>
            if a.id == id then
              { a with name := u.name.getD a.name, timezone := u.timezone.getD a.timezone }
            else a) }
    else db
  match u.intervals with
  | none => some db1
  | some ivs =>
    match AvailabilityModel.insertIntervalsT id db1.nextIntervalId ivs
        (db1.intervals.filter (fun iv => iv.availability_id != id)) with
    | none => none
    | some table =>
      some { db1 with
          intervals := table
          nextIntervalId := db1.nextIntervalId + ivs.length }

/-- `AvailabilityService.updateAvailability`: 404 when absent, interval
validation when supplied, then the model's transactional update; a rolled
back transaction surfaces as a 500 with the state unchanged. -/
def AvailabilityService.updateAvailability (db : DB) (id : Nat)
    (u : AvailabilityUpdate) : DB × Except CustomError Availability :=
  match AvailabilityModel.findById db id with
  | none => (db, .error ⟨"Availability not found", 404⟩)
  | some _ =>
    match (match u.intervals with
           | some ivs => AvailabilityService.validateIntervals ivs
           | none => none) with
    | some e => (db, .error e)
    | none =>
      match AvailabilityModel.updateAvailability db id u with
      | none => (db, .error ⟨"Failed to update availability", 500⟩)
      | some db' =>
        match AvailabilityModel.findById db' id with
        | some a => (db', .ok a)
        | none => (db', .error ⟨"Failed to update availability", 500⟩)

/-- `AvailabilityModel.addInterval`: plain `INSERT ... RETURNING *`, which
raises a unique violation (`none`) when the key already exists. -/
def AvailabilityModel.addInterval (db : DB) (availabilityId : Nat)
    (iv : IntervalInput) : Option (DB × AvailInterval) :=
  let row : AvailInterval :=
    ⟨db.nextIntervalId, availabilityId, iv.day_of_week, iv.start_time, iv.end_time⟩
  if db.intervals.any (fun x => sameIntervalKey x row) then
    none
  else
    some ({ db with intervals := db.intervals ++ [row],
                    nextIntervalId := db.nextIntervalId + 1 }, row)

/-- `AvailabilityService.addInterval`: 404 when the availability is absent,
then the day-of-week and time-ordering validations, then the insert (a
unique violation surfaces as a 500). -/
def AvailabilityService.addInterval (db : DB) (availabilityId : Nat)
    (iv : IntervalInput) : DB × Except CustomError AvailInterval :=
  match AvailabilityModel.findById db availabilityId with
  | none => (db, .error ⟨"Availability not found", 404⟩)
  | some _ =>
    if iv.day_of_week < 1 || iv.day_of_week > 7 then
      (db, .error ⟨"Day of week must be between 1 and 7", 400⟩)
    else if timeGe iv.start_time iv.end_time then
      (db, .error ⟨"Start time must be before end time", 400⟩)
    else
      match AvailabilityModel.addInterval db availabilityId iv with
      | some (db', row) => (db', .ok row)
      | none => (db, .error ⟨"Failed to add interval", 500⟩)

/-- Partial-update payload for one availability interval. -/
structure IntervalUpdate where
  day_of_week : Option Int := none
  start_time : Option String := none
  end_time : Option String := none
deriving Repr, DecidableEq

/-- Apply the `SET` clauses of `AvailabilityModel.updateInterval`. -/
def AvailabilityModel.applyIntervalUpdate (iv : AvailInterval) (u : IntervalUpdate) :
    AvailInterval :=
  { iv with
    day_of_week := u.day_of_week.getD iv.day_of_week
    start_time := u.start_time.getD iv.start_time
    end_time := u.end_time.getD iv.end_time }

/-- `AvailabilityModel.updateInterval`: throws when no field is present,
returns `none` when the id matches no row. -/
def AvailabilityModel.updateInterval (db : DB) (intervalId : Nat)
    (u : IntervalUpdate) : DB × Except String (Option AvailInterval) :=
  if u.day_of_week.isNone && u.start_time.isNone && u.end_time.isNone then
    (db, .error "No fields to update")
  else
    match db.intervals.find? (fun iv => iv.id == intervalId) with
    | none => (db, .ok none)
    | some iv =>
      ({ db with
          intervals := db.intervals.map (fun x =>
            if x.id == intervalId then AvailabilityModel.applyIntervalUpdate x u else x) },
        .ok (some (AvailabilityModel.applyIntervalUpdate iv u)))

/-- `AvailabilityService.updateInterval`: range-checks `day_of_week` when
present; checks `start_time >= end_time` only when BOTH times are present;
then the model update (404 when the interval does not exist, 500 for the
model's "no fields" throw). -/
def AvailabilityService.updateInterval (db : DB) (intervalId : Nat)
    (u : IntervalUpdate) : DB × Except CustomError AvailInterval :=
  if (match u.day_of_week with
      | some d => d < 1 || d > 7
      | none => false) then
    (db, .error ⟨"Day of week must be between 1 and 7", 400⟩)
  else if (match u.start_time, u.end_time with
           | some s, some e => timeGe s e
           | _, _ => false) then
    (db, .error ⟨"Start time must be before end time", 400⟩)
  else
    match AvailabilityModel.updateInterval db intervalId u with
    | (db', .error _) => (db', .error ⟨"Failed to update interval: No fields to update", 500⟩)
    | (db', .ok none) => (db', .error ⟨"Interval not found", 404⟩)
    | (db', .ok (some iv)) => (db', .ok iv)

/-- `AvailabilityModel.getDefaultAvailability`:
`SELECT * FROM availability ORDER BY id ASC LIMIT 1` — the row with the
smallest id, or `none` when the table is empty. -/
def AvailabilityModel.getDefaultAvailability (db : DB) : Option Availability :=
  minById db.availabilities
where
  minById : List Availability → Option Availability
  | [] => none
  | a :: rest =>
    match minById rest with
    | none => some a
    | some b => if a.id ≤ b.id then some a else some b

/-- Payload of `EventTypeService.createEventType` after body validation. -/
structure EventTypeCreate where
  name : String
  description : Option String := none
  duration : Nat
  url_slug : Option String := none
  user_id : Option Nat := none
  availability_id : Option Nat := none
deriving Repr, DecidableEq

/-- `EventTypeModel.createEventType`: `INSERT` with `url_slug || name` as
slug; the service has already resolved `availability_id`.  The insert
raises a unique violation (`none`, which the service wraps into a 500)
when an existing row already carries this `name` or this slug —
`event_types.name` and `event_types.url_slug` are both `UNIQUE`. -/
def EventTypeModel.createEventType (db : DB) (p : EventTypeCreate)
    (availabilityId : Option Nat) : DB × Option EventType :=
  if db.eventTypes.any (fun et =>
      et.name == p.name || et.url_slug == p.url_slug.getD p.name) then
    (db, none)
  else
    let et : EventType :=
      { id := db.nextEventTypeId
        name := p.name
        description := p.description
        duration := p.duration
        url_slug := p.url_slug.getD p.name
        user_id := p.user_id
        availability_id := availabilityId }
    ({ db with eventTypes := db.eventTypes ++ [et],
               nextEventTypeId := db.nextEventTypeId + 1 }, some et)

/-- The seven default intervals (`14:00:00`–`22:00:00`, days 1..7) inserted
by the provisioning loop in `EventTypeService.createEventType`. -/
def EventTypeService.defaultIntervalInputs : List IntervalInput :=
  (List.range 7).map (fun d => ⟨(d : Int) + 1, "14:00:00", "22:00:00"⟩)

/-- `EventTypeService.createEventType`: duplicate-name check, then default
availability resolution (reuse `getDefaultAvailability`, else provision the
"Default Availability" with its seven intervals in one transaction), then
the event-type insert.  The provisioning transaction commits before the
event-type `INSERT` runs, so when that insert fails (a `name`/`url_slug`
unique violation, wrapped into a 500) the provisioned availability and its
intervals remain behind. -/
def EventTypeService.createEventType (db : DB) (p : EventTypeCreate) :
    DB × Except CustomError EventType :=
  match EventTypeModel.findByName db p.name with
  | some _ => (db, .error ⟨"Event type with this name already exists", 409⟩)
  | none =>
    match p.availability_id with
    | some aid =>
      match EventTypeModel.createEventType db p (some aid) with
      | (db', some et) => (db', .ok et)
      | (db', none) => (db', .error ⟨"Failed to create event type", 500⟩)
    | none =>
      match AvailabilityModel.getDefaultAvailability db with
      | some a =>
        match EventTypeModel.createEventType db p (some a.id) with
        | (db', some et) => (db', .ok et)
        | (db', none) => (db', .error ⟨"Failed to create event type", 500⟩)
      | none =>
        match AvailabilityModel.insertIntervalsT db.nextAvailabilityId
            db.nextIntervalId EventTypeService.defaultIntervalInputs
            db.intervals with
        | none => (db, .error ⟨"Failed to create event type", 500⟩)
        | some table =>
          let db1 : DB :=
            { db with
                availabilities := db.availabilities ++
                  [⟨db.nextAvailabilityId, "Default Availability", "UTC"⟩]
                intervals := table
                nextAvailabilityId := db.nextAvailabilityId + 1
                nextIntervalId := db.nextIntervalId +
                  EventTypeService.defaultIntervalInputs.length }
          match EventTypeModel.createEventType db1 p (some db.nextAvailabilityId) with
          | (db', some et) => (db', .ok et)
          | (db', none) => (db', .error ⟨"Failed to create event type", 500⟩)

/-- The booking overlap invariant of the specification: for a given
`event_type_id` and `date`, no two distinct non-cancelled bookings have
overlapping `[start_time, end_time)` intervals. -/
def InvB (l : List Booking) : Prop :=
  ∀ b1 ∈ l, ∀ b2 ∈ l, b1.id ≠ b2.id → b1.event_type_id = b2.event_type_id →
    b1.date = b2.date → b1.booking_status ≠ "cancelled" →
    b2.booking_status ≠ "cancelled" → overlapB b1 b2 = false

/-- The interval invariant of the specification: every persisted
availability interval has `start_time < end_time` (under the JavaScript
string order used by the services). -/
def IntervalInv (l : List AvailInterval) : Prop :=
  ∀ iv ∈ l, timeLt iv.start_time iv.end_time = true

/-- Each booking's id determines it uniquely (the `SERIAL` primary key). -/
def UniqueIds (l : List Booking) : Prop :=
  ∀ b1 ∈ l, ∀ b2 ∈ l, b1.id = b2.id → b1 = b2

instance (l : List Booking) : Decidable (InvB l) := by
  unfold InvB; infer_instance

instance (l : List AvailInterval) : Decidable (IntervalInv l) := by
  unfold IntervalInv; infer_instance

instance (l : List Booking) : Decidable (UniqueIds l) := by
  unfold UniqueIds; infer_instance

/-- Propositional characterisation of one row of the conflict query. -/
lemma conflictRowMatches_iff (E : Nat) (D : String) (S T : Nat)
    (ex : Option Nat) (b : Booking) :
    conflictRowMatches E D S T ex b = true ↔
      (b.event_type_id = E ∧ b.date = D ∧ b.booking_status ≠ "cancelled" ∧
        ((b.start_time ≤ S ∧ S < b.end_time) ∨
         (b.start_time < T ∧ T ≤ b.end_time) ∨
         (S ≤ b.start_time ∧ b.end_time ≤ T)) ∧
        (∀ x, ex = some x → b.id ≠ x)) := by
  cases ex <;>
    simp [conflictRowMatches, and_assoc, Bool.and_eq_true, Bool.or_eq_true,
      decide_eq_true_eq, and_comm]
  · tauto
  · tauto

/-- A stored row that overlaps the candidate half-openly satisfies the
query's three OR'd conditions (no side conditions needed). -/
lemma overlap_implies_row (E : Nat) (D : String) (S T : Nat) (ex : Option Nat)
    (b : Booking) (hE : b.event_type_id = E) (hD : b.date = D)
    (hs : b.booking_status ≠ "cancelled") (hex : ∀ x, ex = some x → b.id ≠ x)
    (h1 : S < b.end_time) (h2 : b.start_time < T) :
    conflictRowMatches E D S T ex b = true := by
  rw [conflictRowMatches_iff]
  exact ⟨hE, hD, hs, by omega, hex⟩

/-- C1: for a candidate with `start_time < end_time` over a store whose
bookings all satisfy `start_time < end_time`, `checkConflict` returns true
iff some stored booking with the same event type and date, not cancelled
and not the excluded id, overlaps the candidate half-openly
(`candidate.start < existing.end ∧ candidate.end > existing.start`). -/
theorem checkConflict_iff_overlap (bookings : List Booking) (E : Nat)
    (D : String) (S T : Nat) (ex : Option Nat) (hST : S < T)
    (hstore : ∀ b ∈ bookings, b.start_time < b.end_time) :
    checkConflict bookings E D S T ex = true ↔
      ∃ b ∈ bookings, b.event_type_id = E ∧ b.date = D ∧
        b.booking_status ≠ "cancelled" ∧ (∀ x, ex = some x → b.id ≠ x) ∧
        S < b.end_time ∧ b.start_time < T := by
  unfold checkConflict
  rw [List.any_eq_true]
  constructor
  · rintro ⟨b, hb, hmatch⟩
    rw [conflictRowMatches_iff] at hmatch
    obtain ⟨h1, h2, h3, h4, h5⟩ := hmatch
    have hlt := hstore b hb
    exact ⟨b, hb, h1, h2, h3, h5, by omega, by omega⟩
  · rintro ⟨b, hb, h1, h2, h3, h4, h5, h6⟩
    exact ⟨b, hb, overlap_implies_row E D S T ex b h1 h2 h3 h4 h5 h6⟩

/-- A sample stored booking used by concrete witnesses. -/
def wBooking : Booking :=
  { id := 1, event_type_id := 1, client_email := "a@b.com", name := "A"
    additional_notes := none, start_time := 10, end_time := 12
    date := "2025-01-15", meeting_link := none, booking_status := "confirmed" }

/-- Witness for C1 at a concrete store and candidate. -/
theorem checkConflict_iff_overlap_witness :
    checkConflict [wBooking] 1 "2025-01-15" 11 13 none = true :=
  (checkConflict_iff_overlap [wBooking] 1 "2025-01-15" 11 13 none
      (by decide) (by decide)).mpr
    ⟨wBooking, by decide, rfl, rfl, by decide, by simp, by decide, by decide⟩

/-- C3: in `createBooking` the existence check runs first and the conflict
check runs before the time-ordering check: a request whose event type
exists, which conflicts, and whose `start_time >= end_time` fails with 409
(not 400); a request whose event type does not exist fails with 404. -/
theorem createBooking_check_order :
    (∀ (db : DB) (req : BookingRequest),
        (EventTypeModel.findById db req.event_type_id).isSome = true →
        checkConflict db.bookings req.event_type_id req.date req.start_time
          req.end_time none = true →
        req.end_time ≤ req.start_time →
        errStatus (BookingsService.createBooking db req).2 = some 409) ∧
    (∀ (db : DB) (req : BookingRequest),
        EventTypeModel.findById db req.event_type_id = none →
        errStatus (BookingsService.createBooking db req).2 = some 404) := by
  constructor
  · intro db req hfind hconf _
    unfold BookingsService.createBooking
    cases hf : EventTypeModel.findById db req.event_type_id with
    | none => rw [hf] at hfind; simp at hfind
    | some et => simp [hconf, errStatus]
  · intro db req hfind
    unfold BookingsService.createBooking
    rw [hfind]
    rfl

/-- A sample event type used by concrete witnesses. -/
def wEventType : EventType :=
  { id := 1, name := "30min", description := none, duration := 30
    url_slug := "30min", user_id := none, availability_id := none }

/-- A state with one event type and one confirmed booking. -/
def wDb : DB :=
  { bookings := [wBooking], eventTypes := [wEventType], availabilities := []
    intervals := [], nextBookingId := 2, nextEventTypeId := 2
    nextAvailabilityId := 1, nextIntervalId := 1 }

/-- A conflicting and ill-ordered booking request (start = end = 11, inside
the stored booking 10–12). -/
def wBadRequest : BookingRequest :=
  { event_type_id := 1, client_email := "c@d.com", name := "B"
    start_time := 11, end_time := 11, date := "2025-01-15" }

/-- Witness for C3: the conflicting, ill-ordered request is answered with
409, and a request for a missing event type with 404. -/
theorem createBooking_check_order_witness :
    errStatus (BookingsService.createBooking wDb wBadRequest).2 = some 409 ∧
    errStatus (BookingsService.createBooking wDb
      { wBadRequest with event_type_id := 99 }).2 = some 404 :=
  ⟨createBooking_check_order.1 wDb wBadRequest (by decide) (by decide) (by decide),
   createBooking_check_order.2 wDb { wBadRequest with event_type_id := 99 } (by decide)⟩

/-- C4: cancelled bookings never participate in conflict detection —
`checkConflict` ignores every row whose `booking_status` is `'cancelled'` —
and in a state where a cancelled booking occupies `(E, D, S, T)` and no
other non-cancelled booking of that event type and date overlaps `[S, T)`,
`createBooking` with the identical `(E, D, S, T)` does not answer 409. -/
theorem cancelled_never_conflicts :
    (∀ (bookings : List Booking) (E : Nat) (D : String) (S T : Nat)
        (ex : Option Nat),
        checkConflict bookings E D S T ex =
          checkConflict (bookings.filter (fun b => b.booking_status != "cancelled"))
            E D S T ex) ∧
    (∀ (db : DB) (req : BookingRequest) (b : Booking),
        b ∈ db.bookings → b.booking_status = "cancelled" →
        b.event_type_id = req.event_type_id → b.date = req.date →
        b.start_time = req.start_time → b.end_time = req.end_time →
        req.start_time < req.end_time →
        (∀ x ∈ db.bookings, x.start_time < x.end_time) →
        (∀ x ∈ db.bookings, x.booking_status ≠ "cancelled" →
          x.event_type_id = req.event_type_id → x.date = req.date →
          ¬ (x.start_time < req.end_time ∧ req.start_time < x.end_time)) →
        errStatus (BookingsService.createBooking db req).2 ≠ some 409) := by
  constructor
  · intro bookings E D S T ex
    induction bookings with
    | nil => rfl
    | cons b rest ih =>
      by_cases hc : b.booking_status = "cancelled"
      · have hrow : conflictRowMatches E D S T ex b = false := by
          cases ex <;> simp [conflictRowMatches, hc]
        simp [checkConflict, List.filter_cons, hc, List.any_cons, hrow] at *
        exact ih
      · simp [checkConflict, List.filter_cons, hc, List.any_cons] at *
        rw [ih]
  · intro db req b _ _ _ _ _ _ hord hstore hnoov
    have hcf : checkConflict db.bookings req.event_type_id req.date
        req.start_time req.end_time none = false := by
      rw [← Bool.not_eq_true]
      intro hc
      rw [checkConflict_iff_overlap db.bookings req.event_type_id req.date
        req.start_time req.end_time none hord hstore] at hc
      obtain ⟨x, hx, h1, h2, h3, _, h5, h6⟩ := hc
      exact hnoov x hx h3 h1 h2 ⟨h6, h5⟩
    unfold BookingsService.createBooking
    cases hf : EventTypeModel.findById db req.event_type_id with
    | none => simp [errStatus]
    | some et =>
      rw [hcf]
      by_cases he : req.end_time ≤ req.start_time <;> simp [he, errStatus]

/-- A state holding only a cancelled booking in the slot 10–12. -/
def wCancelledDb : DB :=
  { wDb with bookings := [{ wBooking with booking_status := "cancelled" }] }

/-- Witness for C4: re-booking the identical slot over a cancelled booking
is not answered with 409. -/
theorem cancelled_never_conflicts_witness :
    errStatus (BookingsService.createBooking wCancelledDb
      { wBadRequest with start_time := 10, end_time := 12 }).2 ≠ some 409 :=
  cancelled_never_conflicts.2 wCancelledDb
    { wBadRequest with start_time := 10, end_time := 12 }
    { wBooking with booking_status := "cancelled" }
    (by decide) rfl rfl rfl rfl rfl (by decide) (by decide) (by decide)

/-- Propositional form of the overlap test between two bookings. -/
lemma overlapB_eq_true_iff (b1 b2 : Booking) :
    overlapB b1 b2 = true ↔
      (b1.start_time < b2.end_time ∧ b2.start_time < b1.end_time) := by
  simp [overlapB]

/-- A false `checkConflict` means every stored row fails the row test. -/
lemma checkConflict_eq_false_iff (bookings : List Booking) (E : Nat)
    (D : String) (S T : Nat) (ex : Option Nat) :
    checkConflict bookings E D S T ex = false ↔
      ∀ x ∈ bookings, conflictRowMatches E D S T ex x = false := by
  unfold checkConflict
  rw [List.any_eq_false]
  simp

/-- `createBooking` preserves the overlap invariant: it only inserts after
`checkConflict` reported no overlapping non-cancelled booking. -/
lemma createBooking_preserves_InvB (db : DB) (req : BookingRequest)
    (hInv : InvB db.bookings) :
    InvB (BookingsService.createBooking db req).1.bookings := by
  unfold BookingsService.createBooking
  cases hf : EventTypeModel.findById db req.event_type_id with
  | none => exact hInv
  | some et =>
    cases hc : checkConflict db.bookings req.event_type_id req.date
        req.start_time req.end_time none with
    | true => simpa using hInv
    | false =>
      by_cases he : req.end_time ≤ req.start_time
      · simpa [he] using hInv
      · have hrow := (checkConflict_eq_false_iff db.bookings req.event_type_id
          req.date req.start_time req.end_time none).mp hc
        simp only [he, if_false, if_true, BookingsModel.createBooking]
        intro b1 h1 b2 h2 hid hE hD hs1 hs2
        rcases List.mem_append.mp h1 with h1m | h1m <;>
          rcases List.mem_append.mp h2 with h2m | h2m
        · exact hInv b1 h1m b2 h2m hid hE hD hs1 hs2
        · have hb2 := List.mem_singleton.mp h2m
          subst hb2
          rw [← Bool.not_eq_true]
          intro hov
          rw [overlapB_eq_true_iff] at hov
          simp only at hov hE hD hs2
          exact absurd
            (overlap_implies_row req.event_type_id req.date req.start_time
              req.end_time none b1 hE hD hs1 (fun x hx => by cases hx)
              hov.2 hov.1)
            (by simp [hrow b1 h1m])
        · have hb1 := List.mem_singleton.mp h1m
          subst hb1
          rw [← Bool.not_eq_true]
          intro hov
          rw [overlapB_eq_true_iff] at hov
          simp only at hov hE hD hs1
          exact absurd
            (overlap_implies_row req.event_type_id req.date req.start_time
              req.end_time none b2 hE.symm hD.symm hs2 (fun x hx => by cases hx)
              hov.1 hov.2)
            (by simp [hrow b2 h2m])
        · have hb1 := List.mem_singleton.mp h1m
          have hb2 := List.mem_singleton.mp h2m
          rw [hb1, hb2] at hid
          exact absurd rfl hid

/-- `updateBooking` preserves the overlap invariant whenever the payload
touches one of `start_time`, `end_time`, `date` and carries no
`event_type_id`, because the conflict re-check then runs against exactly
the merged values that get stored. -/
lemma updateBooking_preserves_InvB (db : DB) (id : Nat) (u : BookingUpdate)
    (huniq : UniqueIds db.bookings) (hInv : InvB db.bookings)
    (htouch : u.start_time.isSome = true ∨ u.end_time.isSome = true ∨
      u.date.isSome = true)
    (hety : u.event_type_id = none) :
    InvB (BookingsService.updateBooking db id u).1.bookings := by
  unfold BookingsService.updateBooking
  cases hf : db.bookings.find? (fun b => b.id == id) with
  | none => exact hInv
  | some existing =>
    have hid_ex : existing.id = id := by
      have := List.find?_some hf
      simpa using this
    have hmem_ex : existing ∈ db.bookings := List.mem_of_find?_eq_some hf
    split
    · exact hInv
    · next b hsome =>
      injection hsome with hb
      subst hb
      split
      · exact hInv
      · next hcond =>
        rw [Bool.not_eq_true] at hcond
        have hchk : checkConflict db.bookings existing.event_type_id
            (u.date.getD existing.date) (u.start_time.getD existing.start_time)
            (u.end_time.getD existing.end_time) (some id) = false := by
          cases hck : checkConflict db.bookings
              (u.event_type_id.getD existing.event_type_id)
              (u.date.getD existing.date)
              (u.start_time.getD existing.start_time)
              (u.end_time.getD existing.end_time) (some id) with
          | false => rw [hety] at hck; simpa using hck
          | true =>
            rw [hck, Bool.and_true] at hcond
            simp [hety] at hcond
            obtain ⟨⟨hs, he⟩, hd⟩ := hcond
            simp [hs, he, hd] at htouch
        have hmf : u.hasModelField = true := by
          unfold BookingUpdate.hasModelField
          rcases htouch with h | h | h <;> simp [h]
        have hmodel : BookingsModel.updateBooking db id u =
            ({ db with bookings := db.bookings.map (fun x =>
                if x.id == id then BookingsModel.applyUpdate x u else x) },
              Except.ok (some (BookingsModel.applyUpdate existing u))) := by
          unfold BookingsModel.updateBooking
          rw [hmf, hf]
          rfl
        split
        · exact hInv
        · rw [hmodel]
          have hrow := (checkConflict_eq_false_iff db.bookings
            existing.event_type_id (u.date.getD existing.date)
            (u.start_time.getD existing.start_time)
            (u.end_time.getD existing.end_time) (some id)).mp hchk
          intro b1 h1 b2 h2 hid hE hD hs1 hs2
          obtain ⟨y1, hy1, hfy1⟩ := List.mem_map.mp h1
          obtain ⟨y2, hy2, hfy2⟩ := List.mem_map.mp h2
          by_cases hb1 : y1.id = id <;> by_cases hb2 : y2.id = id
          · have he1 : y1 = existing := huniq y1 hy1 existing hmem_ex (by rw [hb1, hid_ex])
            have he2 : y2 = existing := huniq y2 hy2 existing hmem_ex (by rw [hb2, hid_ex])
            rw [he1] at hfy1
            rw [he2] at hfy2
            rw [← hfy1, ← hfy2] at hid
            exact absurd rfl hid
          · have he1 : y1 = existing := huniq y1 hy1 existing hmem_ex (by rw [hb1, hid_ex])
            rw [he1] at hfy1
            rw [if_pos (show (existing.id == id) = true by simp [hid_ex])] at hfy1
            rw [if_neg (show ¬ (y2.id == id) = true by simp [hb2])] at hfy2
            subst hfy1
            subst hfy2
            rw [← Bool.not_eq_true]
            intro hov
            rw [overlapB_eq_true_iff] at hov
            simp only [BookingsModel.applyUpdate] at hov hE hD hs1
            refine absurd
              (overlap_implies_row existing.event_type_id
                (u.date.getD existing.date) (u.start_time.getD existing.start_time)
                (u.end_time.getD existing.end_time) (some id) y2
                hE.symm hD.symm hs2 ?_ hov.1 hov.2)
              (by simp [hrow y2 hy2])
            intro x hx
            cases hx
            exact hb2
          · have he2 : y2 = existing := huniq y2 hy2 existing hmem_ex (by rw [hb2, hid_ex])
            rw [he2] at hfy2
            rw [if_neg (show ¬ (y1.id == id) = true by simp [hb1])] at hfy1
            rw [if_pos (show (existing.id == id) = true by simp [hid_ex])] at hfy2
            subst hfy1
            subst hfy2
            rw [← Bool.not_eq_true]
            intro hov
            rw [overlapB_eq_true_iff] at hov
            simp only [BookingsModel.applyUpdate] at hov hE hD hs2
            refine absurd
              (overlap_implies_row existing.event_type_id
                (u.date.getD existing.date) (u.start_time.getD existing.start_time)
                (u.end_time.getD existing.end_time) (some id) y1
                hE hD hs1 ?_ hov.2 hov.1)
              (by simp [hrow y1 hy1])
            intro x hx
            cases hx
            exact hb1
          · rw [if_neg (by simpa using hb1)] at hfy1
            rw [if_neg (by simpa using hb2)] at hfy2
            subst hfy1
            subst hfy2
            exact hInv y1 hy1 y2 hy2 hid hE hD hs1 hs2

/-- `deleteBooking` preserves the overlap invariant (it only removes rows). -/
lemma deleteBooking_preserves_InvB (db : DB) (id : Nat)
    (hInv : InvB db.bookings) :
    InvB (BookingsService.deleteBooking db id).1.bookings := by
  unfold BookingsService.deleteBooking
  cases hf : db.bookings.find? (fun b => b.id == id) with
  | none => exact hInv
  | some b =>
    intro b1 h1 b2 h2 hid hE hD hs1 hs2
    exact hInv b1 (List.mem_of_mem_filter h1) b2 (List.mem_of_mem_filter h2)
      hid hE hD hs1 hs2

/-- C2 (amended): `createBooking` and `deleteBooking` preserve the overlap
invariant, and `updateBooking` preserves it whenever the payload contains
at least one of `start_time`, `end_time`, `date` and no `event_type_id`;
a payload touching none of these (for example only `booking_status`)
bypasses the conflict re-check and may break the invariant. -/
theorem bookingOps_preserve_overlap_invariant :
    (∀ (db : DB) (req : BookingRequest), InvB db.bookings →
        InvB (BookingsService.createBooking db req).1.bookings) ∧
    (∀ (db : DB) (id : Nat) (u : BookingUpdate), UniqueIds db.bookings →
        InvB db.bookings →
        (u.start_time.isSome || u.end_time.isSome || u.date.isSome) = true →
        u.event_type_id = none →
        InvB (BookingsService.updateBooking db id u).1.bookings) ∧
    (∀ (db : DB) (id : Nat), InvB db.bookings →
        InvB (BookingsService.deleteBooking db id).1.bookings) := by
  refine ⟨fun db req hInv => createBooking_preserves_InvB db req hInv,
    fun db id u huniq hInv htouch hety => ?_,
    fun db id hInv => deleteBooking_preserves_InvB db id hInv⟩
  refine updateBooking_preserves_InvB db id u huniq hInv ?_ hety
  have h := htouch
  simp only [Bool.or_eq_true] at h
  tauto

/-- Witness for C2 (amended) at a concrete state. -/
theorem bookingOps_preserve_overlap_invariant_witness :
    InvB (BookingsService.deleteBooking wDb 1).1.bookings :=
  bookingOps_preserve_overlap_invariant.2.2 wDb 1 (by decide)

/-- A state with a confirmed booking and a cancelled booking occupying the
same event type, date and time range — the invariant holds because the
second booking is cancelled. -/
def c2State : DB :=
  { wDb with
      bookings := [wBooking, { wBooking with id := 2, booking_status := "cancelled" }]
      nextBookingId := 3 }

/-- The status-only payload turning the cancelled booking back on. -/
def c2Upd : BookingUpdate := { booking_status := some "confirmed" }

/-- Counterexample to C2 as stated: updating only `booking_status` from
`'cancelled'` to `'confirmed'` succeeds without any conflict check and
leaves two confirmed bookings overlapping on the same event type and
date. -/
theorem statusOnly_update_breaks_invariant :
    InvB c2State.bookings ∧
    isOk (BookingsService.updateBooking c2State 2 c2Upd).2 = true ∧
    ¬ InvB (BookingsService.updateBooking c2State 2 c2Upd).1.bookings :=
  ⟨by decide, by decide, by decide⟩

/-- An interval rejected by the services' validation loop: day of week
outside `[1,7]` or `start_time >= end_time` (JavaScript string order). -/
def badInterval (iv : IntervalInput) : Prop :=
  iv.day_of_week < 1 ∨ iv.day_of_week > 7 ∨ timeGe iv.start_time iv.end_time = true

instance (iv : IntervalInput) : Decidable (badInterval iv) := by
  unfold badInterval; infer_instance

/-- Every error the validation loop produces carries status 400. -/
lemma validateIntervals_status (L : List IntervalInput) (e : CustomError)
    (h : AvailabilityService.validateIntervals L = some e) : e.status = 400 := by
  induction L with
  | nil => exact absurd h (by simp [AvailabilityService.validateIntervals])
  | cons iv rest ih =>
    unfold AvailabilityService.validateIntervals at h
    split at h
    · cases h; rfl
    · split at h
      · cases h; rfl
      · exact ih h

/-- A payload that passes the validation loop has no bad interval. -/
lemma validateIntervals_none_sound (L : List IntervalInput)
    (h : AvailabilityService.validateIntervals L = none) :
    ∀ iv ∈ L, ¬ badInterval iv := by
  induction L with
  | nil => intro iv hiv; cases hiv
  | cons iv0 rest ih =>
    unfold AvailabilityService.validateIntervals at h
    split at h
    · cases h
    · split at h
      · cases h
      · intro iv hiv
        rcases List.mem_cons.mp hiv with rfl | hm
        · next h1 h2 =>
          unfold badInterval
          push_neg
          simp only [Bool.or_eq_true, decide_eq_true_eq, not_or] at h1
          exact ⟨by omega, by omega, h2⟩
        · exact ih h iv hm

/-- A payload containing a bad interval is rejected with a 400 error. -/
lemma validateIntervals_bad (L : List IntervalInput)
    (h : ∃ iv ∈ L, badInterval iv) :
    ∃ e, AvailabilityService.validateIntervals L = some e ∧ e.status = 400 := by
  cases hv : AvailabilityService.validateIntervals L with
  | none =>
    obtain ⟨iv, hiv, hbad⟩ := h
    exact absurd hbad (validateIntervals_none_sound L hv iv hiv)
  | some e => exact ⟨e, rfl, validateIntervals_status L e hv⟩

/-- C5: an availability create or update whose submitted interval list
contains a bad interval (day of week outside `[1,7]` or
`start_time >= end_time`) fails with status 400 and leaves the database
state completely unchanged. -/
theorem availability_writes_reject_bad_intervals :
    (∀ (db : DB) (p : AvailabilityCreate) (L : List IntervalInput),
        p.intervals = some L → (∃ iv ∈ L, badInterval iv) →
        errStatus (AvailabilityService.createAvailability db p).2 = some 400 ∧
        (AvailabilityService.createAvailability db p).1 = db) ∧
    (∀ (db : DB) (id : Nat) (u : AvailabilityUpdate) (L : List IntervalInput),
        (AvailabilityModel.findById db id).isSome = true →
        u.intervals = some L → (∃ iv ∈ L, badInterval iv) →
        errStatus (AvailabilityService.updateAvailability db id u).2 = some 400 ∧
        (AvailabilityService.updateAvailability db id u).1 = db) := by
  constructor
  · intro db p L hint hbad
    obtain ⟨e, he, hst⟩ := validateIntervals_bad L hbad
    unfold AvailabilityService.createAvailability
    rw [hint]
    simp only [he]
    exact ⟨by simp [errStatus, hst], by trivial⟩
  · intro db id u L hfa hint hbad
    obtain ⟨e, he, hst⟩ := validateIntervals_bad L hbad
    unfold AvailabilityService.updateAvailability
    cases hf : AvailabilityModel.findById db id with
    | none => rw [hf] at hfa; simp at hfa
    | some a =>
      rw [hint]
      simp only [he]
      exact ⟨by simp [errStatus, hst], by trivial⟩

/-- A sample availability row for concrete witnesses. -/
def wAvail : Availability := ⟨1, "Work Hours", "UTC"⟩

/-- A state holding one availability with one interval. -/
def wAvailDb : DB :=
  { bookings := [], eventTypes := [], availabilities := [wAvail]
    intervals := [⟨1, 1, 1, "09:00:00", "17:00:00"⟩], nextBookingId := 1
    nextEventTypeId := 1, nextAvailabilityId := 2, nextIntervalId := 2 }

/-- An interval with day of week 0, rejected by validation. -/
def wBadInterval : IntervalInput := ⟨0, "09:00:00", "17:00:00"⟩

/-- Witness for C5: a create and an update carrying the bad interval are
both answered with 400 and change nothing. -/
theorem availability_writes_reject_bad_intervals_witness :
    (errStatus (AvailabilityService.createAvailability wAvailDb
        { name := "X", intervals := some [wBadInterval] }).2 = some 400 ∧
      (AvailabilityService.createAvailability wAvailDb
        { name := "X", intervals := some [wBadInterval] }).1 = wAvailDb) ∧
    (errStatus (AvailabilityService.updateAvailability wAvailDb 1
        { intervals := some [wBadInterval] }).2 = some 400 ∧
      (AvailabilityService.updateAvailability wAvailDb 1
        { intervals := some [wBadInterval] }).1 = wAvailDb) :=
  ⟨availability_writes_reject_bad_intervals.1 wAvailDb
      { name := "X", intervals := some [wBadInterval] } [wBadInterval] rfl
      ⟨wBadInterval, by decide, by decide⟩,
    availability_writes_reject_bad_intervals.2 wAvailDb 1
      { intervals := some [wBadInterval] } [wBadInterval] (by decide) rfl
      ⟨wBadInterval, by decide, by decide⟩⟩

/-- A payload that passes the validation loop has ordered times. -/
lemma validateIntervals_none_lt (L : List IntervalInput)
    (h : AvailabilityService.validateIntervals L = none) :
    ∀ iv ∈ L, timeLt iv.start_time iv.end_time = true := by
  intro iv hiv
  have hnb := validateIntervals_none_sound L h iv hiv
  unfold badInterval at hnb
  push_neg at hnb
  have h3 := hnb.2.2
  simpa [timeGe] using h3

/-- Every row produced by the interval-insert loop carries the times of
one of the submitted intervals. -/
lemma insertIntervals_src (aid : Nat) (L : List IntervalInput) :
    ∀ (n : Nat) (iv : AvailInterval),
      iv ∈ AvailabilityModel.insertIntervals aid n L →
      ∃ src ∈ L, iv.start_time = src.start_time ∧ iv.end_time = src.end_time := by
  induction L with
  | nil =>
    intro n iv hiv
    exact absurd hiv (by simp [AvailabilityModel.insertIntervals])
  | cons s rest ih =>
    intro n iv hiv
    rw [AvailabilityModel.insertIntervals] at hiv
    rcases List.mem_cons.mp hiv with rfl | hm
    · exact ⟨s, List.mem_cons_self s rest, rfl, rfl⟩
    · obtain ⟨src, hsrc, hh⟩ := ih (n + 1) iv hm
      exact ⟨src, List.mem_cons_of_mem s hsrc, hh⟩

/-- Every row produced by the interval-insert loop belongs to the target
availability. -/
lemma insertIntervals_avail (aid : Nat) (L : List IntervalInput) :
    ∀ (n : Nat) (iv : AvailInterval),
      iv ∈ AvailabilityModel.insertIntervals aid n L → iv.availability_id = aid := by
  induction L with
  | nil =>
    intro n iv hiv
    exact absurd hiv (by simp [AvailabilityModel.insertIntervals])
  | cons s rest ih =>
    intro n iv hiv
    rw [AvailabilityModel.insertIntervals] at hiv
    rcases List.mem_cons.mp hiv with rfl | hm
    · rfl
    · exact ih (n + 1) iv hm

/-- A successful run of the checked interval-insert loop appends exactly
the rows of `insertIntervals` to the table it was given. -/
lemma insertIntervalsT_some_eq (aid : Nat) (L : List IntervalInput) :
    ∀ (n : Nat) (table table' : List AvailInterval),
      AvailabilityModel.insertIntervalsT aid n L table = some table' →
      table' = table ++ AvailabilityModel.insertIntervals aid n L := by
  induction L with
  | nil =>
    intro n table table' h
    simp only [AvailabilityModel.insertIntervalsT, Option.some.injEq] at h
    rw [AvailabilityModel.insertIntervals, List.append_nil]
    exact h.symm
  | cons s rest ih =>
    intro n table table' h
    simp only [AvailabilityModel.insertIntervalsT] at h
    split at h
    · cases h
    · have h2 := ih (n + 1) _ _ h
      rw [h2, AvailabilityModel.insertIntervals, List.append_assoc]
      rfl

/-- The checked loop succeeds when the inserted days are pairwise distinct
and every current row either belongs to another availability or uses none
of the inserted days. -/
lemma insertIntervalsT_succeeds (aid : Nat) (L : List IntervalInput) :
    ∀ (n : Nat) (table : List AvailInterval),
      L.Pairwise (fun a b => a.day_of_week ≠ b.day_of_week) →
      (∀ x ∈ table, x.availability_id ≠ aid ∨
        ∀ s ∈ L, x.day_of_week ≠ s.day_of_week) →
      ∃ table', AvailabilityModel.insertIntervalsT aid n L table = some table' := by
  induction L with
  | nil =>
    intro n table _ _
    exact ⟨table, rfl⟩
  | cons s rest ih =>
    intro n table hd htab
    rw [List.pairwise_cons] at hd
    have hviol : (table.any (fun x => sameIntervalKey x
        ⟨n, aid, s.day_of_week, s.start_time, s.end_time⟩)) = false := by
      rw [List.any_eq_false]
      intro x hx
      rcases htab x hx with hne | hday
      · simp [sameIntervalKey, hne]
      · have hds := hday s (List.mem_cons_self s rest)
        simp [sameIntervalKey, hds]
    have htab2 : ∀ x ∈ table ++ [⟨n, aid, s.day_of_week, s.start_time, s.end_time⟩],
        x.availability_id ≠ aid ∨ ∀ t ∈ rest, x.day_of_week ≠ t.day_of_week := by
      intro x hx
      rcases List.mem_append.mp hx with hm | hm
      · rcases htab x hm with hne | hday
        · exact Or.inl hne
        · exact Or.inr (fun t htr => hday t (List.mem_cons_of_mem s htr))
      · have hx2 := List.mem_singleton.mp hm
        subst hx2
        exact Or.inr (fun t htr => hd.1 t htr)
    obtain ⟨table', ht⟩ := ih (n + 1)
      (table ++ [⟨n, aid, s.day_of_week, s.start_time, s.end_time⟩]) hd.2 htab2
    refine ⟨table', ?_⟩
    simp only [AvailabilityModel.insertIntervalsT]
    rw [hviol]
    exact ht

/-- On success, the model's transactional create leaves the interval table
extended by exactly the submitted rows. -/
lemma model_createAvailability_some_intervals (db : DB) (p : AvailabilityCreate)
    (db' : DB) (a : Availability)
    (h : AvailabilityModel.createAvailability db p = some (db', a)) :
    db'.intervals = db.intervals ++
      AvailabilityModel.insertIntervals db.nextAvailabilityId db.nextIntervalId
        (p.intervals.getD []) := by
  unfold AvailabilityModel.createAvailability at h
  dsimp only at h
  cases hins : AvailabilityModel.insertIntervalsT db.nextAvailabilityId
      db.nextIntervalId (p.intervals.getD []) db.intervals with
  | none => rw [hins] at h; cases h
  | some table =>
    rw [hins] at h
    simp only [Option.some.injEq, Prod.mk.injEq] at h
    rw [← h.1]
    exact insertIntervalsT_some_eq db.nextAvailabilityId (p.intervals.getD [])
      db.nextIntervalId db.intervals table hins

/-- On success, the interval table after the model's transactional
availability update: replaced for this availability when `intervals` is
supplied, untouched otherwise. -/
lemma model_updateAvailability_some_intervals (db : DB) (id : Nat)
    (u : AvailabilityUpdate) (db' : DB)
    (h : AvailabilityModel.updateAvailability db id u = some db') :
    db'.intervals =
      (match u.intervals with
       | none => db.intervals
       | some ivs =>
         db.intervals.filter (fun iv => iv.availability_id != id) ++
           AvailabilityModel.insertIntervals id db.nextIntervalId ivs) := by
  unfold AvailabilityModel.updateAvailability at h
  cases hui : u.intervals with
  | none =>
    by_cases hsc : (u.name.isSome || u.timezone.isSome) = true <;>
      simp only [hui, hsc, if_true, if_false, Bool.false_eq_true,
        Option.some.injEq] at h <;>
      rw [← h]
  | some ivs =>
    by_cases hsc : (u.name.isSome || u.timezone.isSome) = true <;>
      simp only [hui, hsc, if_true, if_false, Bool.false_eq_true] at h <;>
      · cases hins : AvailabilityModel.insertIntervalsT id db.nextIntervalId ivs
            (db.intervals.filter (fun iv => iv.availability_id != id)) with
        | none => rw [hins] at h; cases h
        | some table =>
          rw [hins] at h
          simp only [Option.some.injEq] at h
          rw [← h]
          exact insertIntervalsT_some_eq id ivs db.nextIntervalId _ table hins

/-- On success, the availability table after the model's update: scalar
columns mapped when one of them is supplied, untouched otherwise. -/
lemma model_updateAvailability_some_availabilities (db : DB) (id : Nat)
    (u : AvailabilityUpdate) (db' : DB)
    (h : AvailabilityModel.updateAvailability db id u = some db') :
    db'.availabilities =
      (if u.name.isSome || u.timezone.isSome then
        db.availabilities.map (fun a =>
          if a.id == id then
            { a with name := u.name.getD a.name, timezone := u.timezone.getD a.timezone }
          else a)
      else db.availabilities) := by
  unfold AvailabilityModel.updateAvailability at h
  cases hui : u.intervals with
  | none =>
    by_cases hsc : (u.name.isSome || u.timezone.isSome) = true <;>
      simp only [hui, hsc, if_true, if_false, Bool.false_eq_true,
        Option.some.injEq] at h <;>
      rw [← h] <;> simp [hsc]
  | some ivs =>
    by_cases hsc : (u.name.isSome || u.timezone.isSome) = true <;>
      simp only [hui, hsc, if_true, if_false, Bool.false_eq_true] at h <;>
      · cases hins : AvailabilityModel.insertIntervalsT id db.nextIntervalId ivs
            (db.intervals.filter (fun iv => iv.availability_id != id)) with
        | none => rw [hins] at h; cases h
        | some table =>
          rw [hins] at h
          simp only [Option.some.injEq] at h
          rw [← h]
          simp [hsc]

/-- The model's interval update either leaves the state unchanged (no
fields, or unknown id) or maps the one matching row. -/
lemma model_updateInterval_state (db : DB) (iid : Nat) (u : IntervalUpdate) :
    (AvailabilityModel.updateInterval db iid u).1 = db ∨
    (AvailabilityModel.updateInterval db iid u).1 =
      { db with intervals := db.intervals.map (fun x =>
          if x.id == iid then AvailabilityModel.applyIntervalUpdate x u else x) } := by
  unfold AvailabilityModel.updateInterval
  split
  · exact Or.inl rfl
  · cases hf : db.intervals.find? (fun iv => iv.id == iid) with
    | none => exact Or.inl rfl
    | some iv => exact Or.inr rfl

/-- `createAvailability` (service) preserves the interval time-order
invariant: every inserted interval was validated, and a rolled back
transaction changes nothing. -/
lemma createAvailabilityS_preserves_IntervalInv (db : DB) (p : AvailabilityCreate)
    (hInv : IntervalInv db.intervals) :
    IntervalInv (AvailabilityService.createAvailability db p).1.intervals := by
  have hmodel : ∀ (db' : DB) (a : Availability),
      AvailabilityModel.createAvailability db p = some (db', a) →
      (∀ src ∈ p.intervals.getD [], timeLt src.start_time src.end_time = true) →
      IntervalInv db'.intervals := by
    intro db' a hcr hgood
    have hmi := model_createAvailability_some_intervals db p db' a hcr
    rw [hmi]
    intro x hx
    rcases List.mem_append.mp hx with hm | hm
    · exact hInv x hm
    · obtain ⟨src, hsrc, h1, h2⟩ := insertIntervals_src _ _ _ x hm
      rw [h1, h2]
      exact hgood src hsrc
  unfold AvailabilityService.createAvailability
  cases hpi : p.intervals with
  | none =>
    cases hcr : AvailabilityModel.createAvailability db p with
    | none => exact hInv
    | some pr =>
      obtain ⟨db', a⟩ := pr
      exact hmodel db' a hcr (by rw [hpi]; intro src hsrc; cases hsrc)
  | some L =>
    dsimp only
    cases hv : AvailabilityService.validateIntervals L with
    | some e => exact hInv
    | none =>
      cases hcr : AvailabilityModel.createAvailability db p with
      | none => exact hInv
      | some pr =>
        obtain ⟨db', a⟩ := pr
        refine hmodel db' a hcr ?_
        rw [hpi]
        exact validateIntervals_none_lt L hv

/-- `updateAvailability` (service) preserves the interval time-order
invariant: a successful transaction only stores validated intervals, and a
rolled back one changes nothing. -/
lemma updateAvailabilityS_preserves_IntervalInv (db : DB) (id : Nat)
    (u : AvailabilityUpdate) (hInv : IntervalInv db.intervals) :
    IntervalInv (AvailabilityService.updateAvailability db id u).1.intervals := by
  unfold AvailabilityService.updateAvailability
  cases hf : AvailabilityModel.findById db id with
  | none => exact hInv
  | some a =>
    dsimp only
    cases hui : u.intervals with
    | none =>
      dsimp only
      cases hm : AvailabilityModel.updateAvailability db id u with
      | none => exact hInv
      | some db' =>
        have hmi := model_updateAvailability_some_intervals db id u db' hm
        rw [hui] at hmi
        have hdb' : IntervalInv db'.intervals := by
          rw [hmi]
          exact hInv
        dsimp only
        cases hf2 : AvailabilityModel.findById db' id with
        | none => exact hdb'
        | some a' => exact hdb'
    | some L =>
      dsimp only
      cases hv : AvailabilityService.validateIntervals L with
      | some e => exact hInv
      | none =>
        dsimp only
        cases hm : AvailabilityModel.updateAvailability db id u with
        | none => exact hInv
        | some db' =>
          have hgood := validateIntervals_none_lt L hv
          have hmi := model_updateAvailability_some_intervals db id u db' hm
          rw [hui] at hmi
          have hdb' : IntervalInv db'.intervals := by
            rw [hmi]
            dsimp only
            intro x hx
            rcases List.mem_append.mp hx with hm2 | hm2
            · exact hInv x (List.mem_of_mem_filter hm2)
            · obtain ⟨src, hsrc, h1, h2⟩ :=
                insertIntervals_src id L db.nextIntervalId x hm2
              rw [h1, h2]
              exact hgood src hsrc
          dsimp only
          cases hf2 : AvailabilityModel.findById db' id with
          | none => exact hdb'
          | some a' => exact hdb'

/-- `addInterval` (service) preserves the interval time-order invariant. -/
lemma addIntervalS_preserves_IntervalInv (db : DB) (aid : Nat)
    (iv : IntervalInput) (hInv : IntervalInv db.intervals) :
    IntervalInv (AvailabilityService.addInterval db aid iv).1.intervals := by
  unfold AvailabilityService.addInterval
  cases hf : AvailabilityModel.findById db aid with
  | none => exact hInv
  | some a =>
    dsimp only
    split
    · exact hInv
    · cases hge : timeGe iv.start_time iv.end_time with
      | true => exact hInv
      | false =>
        cases hm : AvailabilityModel.addInterval db aid iv with
        | none => exact hInv
        | some pr =>
          obtain ⟨db', row⟩ := pr
          unfold AvailabilityModel.addInterval at hm
          dsimp only at hm
          split at hm
          · cases hm
          · injection hm with hm
            simp only [Prod.mk.injEq] at hm
            rw [← hm.1]
            intro x hx
            rcases List.mem_append.mp hx with hm2 | hm2
            · exact hInv x hm2
            · have hx2 := List.mem_singleton.mp hm2
              subst hx2
              simpa [timeGe] using hge

/-- `updateInterval` (service) preserves the interval time-order invariant
when the payload carries both times or neither. -/
lemma updateIntervalS_preserves_IntervalInv (db : DB) (iid : Nat)
    (u : IntervalUpdate) (hInv : IntervalInv db.intervals)
    (hboth : u.start_time.isSome = u.end_time.isSome) :
    IntervalInv (AvailabilityService.updateInterval db iid u).1.intervals := by
  unfold AvailabilityService.updateInterval
  split
  · exact hInv
  · split
    · exact hInv
    · next h2 =>
      have hmapped : IntervalInv (db.intervals.map (fun x =>
          if x.id == iid then AvailabilityModel.applyIntervalUpdate x u else x)) := by
        intro iv hiv
        obtain ⟨y, hy, rfl⟩ := List.mem_map.mp hiv
        by_cases hid : (y.id == iid) = true
        · rw [if_pos hid]
          cases hs : u.start_time with
          | none =>
            have he : u.end_time = none := by
              rw [hs] at hboth
              exact Option.not_isSome_iff_eq_none.mp (by simp [← hboth])
            simp only [AvailabilityModel.applyIntervalUpdate, hs, he, Option.getD_none]
            exact hInv y hy
          | some s =>
            have he : ∃ e, u.end_time = some e := by
              rw [hs] at hboth
              exact Option.isSome_iff_exists.mp hboth.symm
            obtain ⟨e, he⟩ := he
            rw [hs, he] at h2
            simp only [AvailabilityModel.applyIntervalUpdate, hs, he, Option.getD_some]
            simpa [timeGe] using h2
        · rw [if_neg hid]
          exact hInv y hy
      rcases hr : AvailabilityModel.updateInterval db iid u with ⟨db', res⟩
      have hIdb' : IntervalInv db'.intervals := by
        have hd : db' = (AvailabilityModel.updateInterval db iid u).1 := by rw [hr]
        rw [hd]
        rcases model_updateInterval_state db iid u with hst | hst <;> rw [hst]
        · exact hInv
        · exact hmapped
      cases res with
      | error e => exact hIdb'
      | ok o =>
        cases o with
        | none => exact hIdb'
        | some x => exact hIdb'

/-- C8 (amended): availability create, availability update with interval
replacement, and `addInterval` preserve the invariant that every persisted
interval has `start_time < end_time`; `updateInterval` preserves it when
the payload carries both times or neither, but a payload carrying exactly
one of `start_time`/`end_time` can break it (see the counterexample). -/
theorem interval_writes_preserve_time_order :
    (∀ (db : DB) (p : AvailabilityCreate), IntervalInv db.intervals →
        IntervalInv (AvailabilityService.createAvailability db p).1.intervals) ∧
    (∀ (db : DB) (id : Nat) (u : AvailabilityUpdate), IntervalInv db.intervals →
        IntervalInv (AvailabilityService.updateAvailability db id u).1.intervals) ∧
    (∀ (db : DB) (aid : Nat) (iv : IntervalInput), IntervalInv db.intervals →
        IntervalInv (AvailabilityService.addInterval db aid iv).1.intervals) ∧
    (∀ (db : DB) (iid : Nat) (u : IntervalUpdate), IntervalInv db.intervals →
        u.start_time.isSome = u.end_time.isSome →
        IntervalInv (AvailabilityService.updateInterval db iid u).1.intervals) :=
  ⟨fun db p hInv => createAvailabilityS_preserves_IntervalInv db p hInv,
   fun db id u hInv => updateAvailabilityS_preserves_IntervalInv db id u hInv,
   fun db aid iv hInv => addIntervalS_preserves_IntervalInv db aid iv hInv,
   fun db iid u hInv hboth => updateIntervalS_preserves_IntervalInv db iid u hInv hboth⟩

/-- Witness for C8 (amended) at a concrete state. -/
theorem interval_writes_preserve_time_order_witness :
    IntervalInv (AvailabilityService.addInterval wAvailDb 1
      ⟨2, "10:00:00", "11:00:00"⟩).1.intervals :=
  interval_writes_preserve_time_order.2.2.1 wAvailDb 1
    ⟨2, "10:00:00", "11:00:00"⟩ (by decide)

/-- The one-sided interval update payload. -/
def c8Upd : IntervalUpdate := { start_time := some "18:00:00" }

/-- Counterexample to C8 as stated: `updateInterval` supplying only
`start_time` skips the ordering check and stores an interval with
`start_time >= end_time`. -/
theorem oneSided_interval_update_breaks_invariant :
    IntervalInv wAvailDb.intervals ∧
    isOk (AvailabilityService.updateInterval wAvailDb 1 c8Upd).2 = true ∧
    ¬ IntervalInv (AvailabilityService.updateInterval wAvailDb 1 c8Upd).1.intervals :=
  ⟨by decide, by decide, by decide⟩

/-- The insert loop keeps the submitted `(day, start, end)` triples in
order. -/
lemma insertIntervals_map_shape (aid : Nat) (L : List IntervalInput) :
    ∀ n, (AvailabilityModel.insertIntervals aid n L).map
        (fun iv => (iv.day_of_week, iv.start_time, iv.end_time)) =
      L.map (fun iv => (iv.day_of_week, iv.start_time, iv.end_time)) := by
  induction L with
  | nil => intro n; simp [AvailabilityModel.insertIntervals]
  | cons s rest ih =>
    intro n
    rw [AvailabilityModel.insertIntervals]
    simp [ih (n + 1)]

/-- All inserted rows survive a filter for their own availability. -/
lemma insertIntervals_filter_own (aid n : Nat) (L : List IntervalInput) :
    (AvailabilityModel.insertIntervals aid n L).filter
      (fun iv => iv.availability_id == aid) =
      AvailabilityModel.insertIntervals aid n L := by
  apply List.filter_eq_self.mpr
  intro iv hiv
  simp [insertIntervals_avail aid L n iv hiv]

/-- No inserted row survives a filter for other availabilities. -/
lemma insertIntervals_filter_other (aid n : Nat) (L : List IntervalInput) :
    (AvailabilityModel.insertIntervals aid n L).filter
      (fun iv => iv.availability_id != aid) = [] := by
  rw [List.filter_eq_nil_iff]
  intro iv hiv
  simp [insertIntervals_avail aid L n iv hiv]

/-- Filtering the kept rows for the replaced availability gives nothing. -/
lemma filterNe_filter_eq (l : List AvailInterval) (id : Nat) :
    (l.filter (fun iv => iv.availability_id != id)).filter
      (fun iv => iv.availability_id == id) = [] := by
  rw [List.filter_eq_nil_iff]
  intro iv hiv
  have h2 := (List.mem_filter.mp hiv).2
  simpa using h2

/-- Filtering for other availabilities is idempotent. -/
lemma filter_ne_idem (l : List AvailInterval) (id : Nat) :
    (l.filter (fun iv => iv.availability_id != id)).filter
      (fun iv => iv.availability_id != id) =
      l.filter (fun iv => iv.availability_id != id) := by
  apply List.filter_eq_self.mpr
  intro iv hiv
  exact (List.mem_filter.mp hiv).2

/-- A successful model update keeps the updated availability findable. -/
lemma model_update_findById_isSome (db : DB) (id : Nat) (u : AvailabilityUpdate)
    (db' : DB) (hm : AvailabilityModel.updateAvailability db id u = some db')
    (h : (AvailabilityModel.findById db id).isSome = true) :
    (AvailabilityModel.findById db' id).isSome = true := by
  unfold AvailabilityModel.findById at h ⊢
  rw [model_updateAvailability_some_availabilities db id u db' hm]
  by_cases hsc : (u.name.isSome || u.timezone.isSome) = true
  · rw [if_pos hsc]
    rw [List.find?_isSome] at h ⊢
    obtain ⟨x, hx, hp⟩ := h
    exact ⟨_, List.mem_map_of_mem _ hx, by simp at hp ⊢; simp [hp]⟩
  · rw [if_neg hsc]
    exact h

/-- Case split on the availability-update service: either some check or the
transaction failed and the state is untouched, or the model transaction
committed (with validated intervals when the payload supplied any). -/
lemma updateAvailabilityS_cases (db : DB) (id : Nat) (u : AvailabilityUpdate) :
    ((AvailabilityService.updateAvailability db id u).1 = db ∧
      isOk (AvailabilityService.updateAvailability db id u).2 = false) ∨
    (∃ db', AvailabilityModel.updateAvailability db id u = some db' ∧
      (AvailabilityService.updateAvailability db id u).1 = db' ∧
      isOk (AvailabilityService.updateAvailability db id u).2 = true ∧
      (∀ L, u.intervals = some L →
        AvailabilityService.validateIntervals L = none)) := by
  unfold AvailabilityService.updateAvailability
  cases hf : AvailabilityModel.findById db id with
  | none => exact Or.inl ⟨rfl, rfl⟩
  | some a =>
    dsimp only
    cases hui : u.intervals with
    | none =>
      dsimp only
      cases hm : AvailabilityModel.updateAvailability db id u with
      | none => exact Or.inl ⟨rfl, rfl⟩
      | some db' =>
        dsimp only
        cases hf2 : AvailabilityModel.findById db' id with
        | none =>
          have hk := model_update_findById_isSome db id u db' hm (by rw [hf]; rfl)
          rw [hf2] at hk
          cases hk
        | some a' =>
          refine Or.inr ⟨db', rfl, rfl, rfl, ?_⟩
          intro L hL
          cases hL
    | some L =>
      dsimp only
      cases hv : AvailabilityService.validateIntervals L with
      | some e => exact Or.inl ⟨rfl, rfl⟩
      | none =>
        dsimp only
        cases hm : AvailabilityModel.updateAvailability db id u with
        | none => exact Or.inl ⟨rfl, rfl⟩
        | some db' =>
          dsimp only
          cases hf2 : AvailabilityModel.findById db' id with
          | none =>
            have hk := model_update_findById_isSome db id u db' hm (by rw [hf]; rfl)
            rw [hf2] at hk
            cases hk
          | some a' =>
            refine Or.inr ⟨db', rfl, rfl, rfl, ?_⟩
            intro L' hL'
            injection hL' with hLL
            rw [← hLL]
            exact hv

/-- C7: when an availability update whose payload supplies `intervals`
(even as the empty list) succeeds, the stored interval set of that
availability is exactly the submitted list and every other availability's
intervals are untouched; the scalar updates and the interval replacement
run in one transaction, so on any failure (404, validation, or a
unique-key violation on an interval insert) the whole state is unchanged;
when `intervals` is not supplied the interval table is unchanged. -/
theorem updateAvailability_replaces_interval_set :
    (∀ (db : DB) (id : Nat) (u : AvailabilityUpdate) (L : List IntervalInput),
        u.intervals = some L →
        isOk (AvailabilityService.updateAvailability db id u).2 = true →
        ((AvailabilityService.updateAvailability db id u).1.intervals.filter
            (fun iv => iv.availability_id == id)).map
            (fun iv => (iv.day_of_week, iv.start_time, iv.end_time)) =
          L.map (fun iv => (iv.day_of_week, iv.start_time, iv.end_time)) ∧
        (AvailabilityService.updateAvailability db id u).1.intervals.filter
            (fun iv => iv.availability_id != id) =
          db.intervals.filter (fun iv => iv.availability_id != id)) ∧
    (∀ (db : DB) (id : Nat) (u : AvailabilityUpdate),
        isOk (AvailabilityService.updateAvailability db id u).2 = false →
        (AvailabilityService.updateAvailability db id u).1 = db) ∧
    (∀ (db : DB) (id : Nat) (u : AvailabilityUpdate),
        u.intervals = none →
        (AvailabilityService.updateAvailability db id u).1.intervals =
          db.intervals) := by
  refine ⟨?_, ?_, ?_⟩
  · intro db id u L hint hok
    rcases updateAvailabilityS_cases db id u with ⟨h1, h2⟩ | ⟨db', hm, h1, h2, hval⟩
    · rw [h2] at hok
      cases hok
    · have hmi := model_updateAvailability_some_intervals db id u db' hm
      rw [hint] at hmi
      have hv := hval L hint
      rw [h1, hmi]
      dsimp only
      constructor
      · rw [List.filter_append, filterNe_filter_eq, insertIntervals_filter_own,
          List.nil_append]
        exact insertIntervals_map_shape id L db.nextIntervalId
      · rw [List.filter_append, filter_ne_idem, insertIntervals_filter_other,
          List.append_nil]
  · intro db id u hfail
    rcases updateAvailabilityS_cases db id u with ⟨h1, h2⟩ | ⟨db', hm, h1, h2, hval⟩
    · exact h1
    · rw [h2] at hfail
      cases hfail
  · intro db id u hnone
    rcases updateAvailabilityS_cases db id u with ⟨h1, h2⟩ | ⟨db', hm, h1, h2, hval⟩
    · rw [h1]
    · have hmi := model_updateAvailability_some_intervals db id u db' hm
      rw [hnone] at hmi
      rw [h1]
      exact hmi

/-- The replacement interval submitted by the C7 witness. -/
def wReplInterval : IntervalInput := ⟨2, "08:00:00", "12:00:00"⟩

/-- The C7 witness payload: replace the interval set. -/
def wReplUpd : AvailabilityUpdate := { intervals := some [wReplInterval] }

/-- Witness for C7 at a concrete state: the update succeeds and the stored
set for availability 1 becomes exactly the submitted singleton. -/
theorem updateAvailability_replaces_interval_set_witness :
    ((AvailabilityService.updateAvailability wAvailDb 1 wReplUpd).1.intervals.filter
        (fun iv => iv.availability_id == 1)).map
        (fun iv => (iv.day_of_week, iv.start_time, iv.end_time)) =
      [wReplInterval].map (fun iv => (iv.day_of_week, iv.start_time, iv.end_time)) ∧
    (AvailabilityService.updateAvailability wAvailDb 1 wReplUpd).1.intervals.filter
        (fun iv => iv.availability_id != 1) =
      wAvailDb.intervals.filter (fun iv => iv.availability_id != 1) :=
  updateAvailability_replaces_interval_set.1 wAvailDb 1 wReplUpd [wReplInterval]
    rfl (by decide)

/-- The min-by-id scan returns `none` only on the empty table. -/
lemma minById_eq_none (l : List Availability) :
    AvailabilityModel.getDefaultAvailability.minById l = none ↔ l = [] := by
  cases l with
  | nil => simp [AvailabilityModel.getDefaultAvailability.minById]
  | cons a rest =>
    rw [AvailabilityModel.getDefaultAvailability.minById]
    constructor
    · intro h
      cases hm : AvailabilityModel.getDefaultAvailability.minById rest with
      | none => rw [hm] at h; cases h
      | some b => rw [hm] at h; dsimp only at h; split at h <;> cases h
    · intro h
      cases h

/-- The min-by-id scan returns a member with the least id. -/
lemma minById_spec (l : List Availability) (hne : l ≠ []) :
    ∃ a, AvailabilityModel.getDefaultAvailability.minById l = some a ∧
      a ∈ l ∧ ∀ x ∈ l, a.id ≤ x.id := by
  induction l with
  | nil => exact absurd rfl hne
  | cons a rest ih =>
    rw [AvailabilityModel.getDefaultAvailability.minById]
    cases hm : AvailabilityModel.getDefaultAvailability.minById rest with
    | none =>
      have hrest : rest = [] := (minById_eq_none rest).mp hm
      subst hrest
      exact ⟨a, rfl, List.mem_singleton_self a, by
        intro x hx
        rw [List.mem_singleton.mp hx]⟩
    | some b =>
      have hrne : rest ≠ [] := by
        intro h
        rw [h] at hm
        cases hm
      obtain ⟨b', hb', hbm, hbmin⟩ := ih hrne
      rw [hm] at hb'
      injection hb' with hbb
      subst hbb
      by_cases hle : a.id ≤ b.id
      · refine ⟨a, by simp [hle], List.mem_cons_self a rest, ?_⟩
        intro x hx
        rcases List.mem_cons.mp hx with rfl | hx
        · exact le_refl _
        · exact le_trans hle (hbmin x hx)
      · refine ⟨b, by simp [hle], List.mem_cons_of_mem a hbm, ?_⟩
        intro x hx
        rcases List.mem_cons.mp hx with rfl | hx
        · omega
        · exact hbmin x hx

/-- The provisioning loop's seven submitted intervals, written out. -/
lemma defaultIntervalInputs_eq :
    EventTypeService.defaultIntervalInputs =
      [⟨1, "14:00:00", "22:00:00"⟩, ⟨2, "14:00:00", "22:00:00"⟩,
       ⟨3, "14:00:00", "22:00:00"⟩, ⟨4, "14:00:00", "22:00:00"⟩,
       ⟨5, "14:00:00", "22:00:00"⟩, ⟨6, "14:00:00", "22:00:00"⟩,
       ⟨7, "14:00:00", "22:00:00"⟩] := rfl

/-- C6 (amended): provided additionally that no existing event type's
`url_slug` equals the new event type's slug (`url_slug`, defaulting to
`name`): creating an event type without `availability_id` when no
availability exists provisions exactly one "Default Availability" (UTC)
with exactly seven 14:00–22:00 intervals, one per day 1..7, and links the
event type to it; when at least one availability exists, the event type is
linked to the lowest-id availability and no row is added.  Without the
slug proviso the event-type insert fails on the `url_slug` unique
constraint after the provisioning already committed (counterexample
below). -/
theorem createEventType_default_availability :
    (∀ (db : DB) (p : EventTypeCreate),
        p.availability_id = none →
        EventTypeModel.findByName db p.name = none →
        (∀ et ∈ db.eventTypes, et.url_slug ≠ p.url_slug.getD p.name) →
        db.availabilities = [] → db.intervals = [] →
        isOk (EventTypeService.createEventType db p).2 = true ∧
        (EventTypeService.createEventType db p).1.availabilities =
          [⟨db.nextAvailabilityId, "Default Availability", "UTC"⟩] ∧
        (EventTypeService.createEventType db p).1.intervals.map
            (fun iv => (iv.availability_id, iv.day_of_week, iv.start_time, iv.end_time)) =
          [(db.nextAvailabilityId, 1, "14:00:00", "22:00:00"),
           (db.nextAvailabilityId, 2, "14:00:00", "22:00:00"),
           (db.nextAvailabilityId, 3, "14:00:00", "22:00:00"),
           (db.nextAvailabilityId, 4, "14:00:00", "22:00:00"),
           (db.nextAvailabilityId, 5, "14:00:00", "22:00:00"),
           (db.nextAvailabilityId, 6, "14:00:00", "22:00:00"),
           (db.nextAvailabilityId, 7, "14:00:00", "22:00:00")] ∧
        (∀ et, (EventTypeService.createEventType db p).2 = Except.ok et →
          et.availability_id = some db.nextAvailabilityId)) ∧
    (∀ (db : DB) (p : EventTypeCreate),
        p.availability_id = none →
        EventTypeModel.findByName db p.name = none →
        (∀ et ∈ db.eventTypes, et.url_slug ≠ p.url_slug.getD p.name) →
        db.availabilities ≠ [] →
        ∃ a, AvailabilityModel.getDefaultAvailability db = some a ∧
          a ∈ db.availabilities ∧ (∀ x ∈ db.availabilities, a.id ≤ x.id) ∧
          isOk (EventTypeService.createEventType db p).2 = true ∧
          (EventTypeService.createEventType db p).1.availabilities =
            db.availabilities ∧
          (EventTypeService.createEventType db p).1.intervals = db.intervals ∧
          (∀ et, (EventTypeService.createEventType db p).2 = Except.ok et →
            et.availability_id = some a.id)) := by
  have hanyOf : ∀ (db : DB) (p : EventTypeCreate),
      EventTypeModel.findByName db p.name = none →
      (∀ et ∈ db.eventTypes, et.url_slug ≠ p.url_slug.getD p.name) →
      (db.eventTypes.any (fun et =>
        et.name == p.name || et.url_slug == p.url_slug.getD p.name)) = false := by
    intro db p hname hslug
    rw [List.any_eq_false]
    intro et het
    unfold EventTypeModel.findByName at hname
    have hn := List.find?_eq_none.mp hname et het
    simp only [Bool.or_eq_true, not_or]
    exact ⟨hn, by simpa using hslug et het⟩
  constructor
  · intro db p hav hname hslug hempty hiempty
    have hdef : AvailabilityModel.getDefaultAvailability db = none := by
      unfold AvailabilityModel.getDefaultAvailability
      rw [hempty]
      rfl
    have hpair : EventTypeService.defaultIntervalInputs.Pairwise
        (fun a b => a.day_of_week ≠ b.day_of_week) := by
      rw [defaultIntervalInputs_eq]
      decide
    obtain ⟨table, htab⟩ := insertIntervalsT_succeeds db.nextAvailabilityId
      EventTypeService.defaultIntervalInputs db.nextIntervalId db.intervals hpair
      (by intro x hx; rw [hiempty] at hx; cases hx)
    have hshape := insertIntervalsT_some_eq db.nextAvailabilityId
      EventTypeService.defaultIntervalInputs db.nextIntervalId db.intervals table htab
    rw [hiempty, List.nil_append] at hshape
    have hany := hanyOf db p hname hslug
    unfold EventTypeService.createEventType
    rw [hname, hav, hdef, htab]
    unfold EventTypeModel.createEventType
    dsimp only
    rw [hany]
    refine ⟨rfl, ?_, ?_, ?_⟩
    · rw [hempty]
      rfl
    · rw [hshape, defaultIntervalInputs_eq]
      rfl
    · intro et het
      injection het with h
      rw [← h]
  · intro db p hav hname hslug hne
    obtain ⟨a, hmin, hmem, hbound⟩ := minById_spec db.availabilities hne
    have hdef : AvailabilityModel.getDefaultAvailability db = some a := hmin
    have hany := hanyOf db p hname hslug
    refine ⟨a, hdef, hmem, hbound, ?_, ?_, ?_, ?_⟩
    · unfold EventTypeService.createEventType
      rw [hname, hav, hdef]
      dsimp only
      unfold EventTypeModel.createEventType
      rw [hany]
      rfl
    · unfold EventTypeService.createEventType
      rw [hname, hav, hdef]
      dsimp only
      unfold EventTypeModel.createEventType
      rw [hany]
      rfl
    · unfold EventTypeService.createEventType
      rw [hname, hav, hdef]
      dsimp only
      unfold EventTypeModel.createEventType
      rw [hany]
      rfl
    · unfold EventTypeService.createEventType
      rw [hname, hav, hdef]
      dsimp only
      unfold EventTypeModel.createEventType
      rw [hany]
      intro et het
      injection het with h
      rw [← h]

/-- The pre-existing event type whose `url_slug` collides with the slug of
the event type the C6 counterexample creates. -/
def c6Colliding : EventType :=
  { id := 1, name := "alpha", description := none, duration := 30
    url_slug := "30min", user_id := none, availability_id := none }

/-- A state with no availability and a slug-colliding event type. -/
def c6Db : DB :=
  { bookings := [], eventTypes := [c6Colliding], availabilities := []
    intervals := [], nextBookingId := 1, nextEventTypeId := 2
    nextAvailabilityId := 1, nextIntervalId := 1 }

/-- The request of the C6 counterexample: fresh name, omitted slug. -/
def c6Req : EventTypeCreate := { name := "30min", duration := 30 }

/-- Counterexample to C6 as stated: with no availability and a fresh name,
but an existing event type whose `url_slug` equals the new slug, the
provisioning commits and then the event-type insert hits the `url_slug`
unique constraint: the create fails with 500, no event type is created or
linked, and the provisioned "Default Availability" is left behind. -/
theorem slug_collision_orphans_default_availability :
    c6Req.availability_id = none ∧
    EventTypeModel.findByName c6Db c6Req.name = none ∧
    c6Db.availabilities = [] ∧
    errStatus (EventTypeService.createEventType c6Db c6Req).2 = some 500 ∧
    (EventTypeService.createEventType c6Db c6Req).1.eventTypes = c6Db.eventTypes ∧
    (EventTypeService.createEventType c6Db c6Req).1.availabilities =
      [⟨c6Db.nextAvailabilityId, "Default Availability", "UTC"⟩] :=
  ⟨rfl, rfl, rfl, by decide, by decide, by decide⟩

/-- The empty initial state used by the C6 witness. -/
def wEmptyDb : DB :=
  { bookings := [], eventTypes := [], availabilities := [], intervals := []
    nextBookingId := 1, nextEventTypeId := 1, nextAvailabilityId := 1
    nextIntervalId := 1 }

/-- Witness for C6 (amended): provisioning from the empty state. -/
theorem createEventType_default_availability_witness :
    isOk (EventTypeService.createEventType wEmptyDb
        { name := "30min", duration := 30 }).2 = true ∧
    (EventTypeService.createEventType wEmptyDb
        { name := "30min", duration := 30 }).1.availabilities =
      [⟨wEmptyDb.nextAvailabilityId, "Default Availability", "UTC"⟩] ∧
    (EventTypeService.createEventType wEmptyDb
        { name := "30min", duration := 30 }).1.intervals.map
        (fun iv => (iv.availability_id, iv.day_of_week, iv.start_time, iv.end_time)) =
      [(wEmptyDb.nextAvailabilityId, 1, "14:00:00", "22:00:00"),
       (wEmptyDb.nextAvailabilityId, 2, "14:00:00", "22:00:00"),
       (wEmptyDb.nextAvailabilityId, 3, "14:00:00", "22:00:00"),
       (wEmptyDb.nextAvailabilityId, 4, "14:00:00", "22:00:00"),
       (wEmptyDb.nextAvailabilityId, 5, "14:00:00", "22:00:00"),
       (wEmptyDb.nextAvailabilityId, 6, "14:00:00", "22:00:00"),
       (wEmptyDb.nextAvailabilityId, 7, "14:00:00", "22:00:00")] ∧
    (∀ et, (EventTypeService.createEventType wEmptyDb
        { name := "30min", duration := 30 }).2 = Except.ok et →
      et.availability_id = some wEmptyDb.nextAvailabilityId) :=
  createEventType_default_availability.1 wEmptyDb
    { name := "30min", duration := 30 } rfl rfl (by decide) rfl rfl

/-- C9: an update whose effective merged `(event_type_id, date, start_time,
end_time)` equal the booking's own current values is never answered with
409, because `checkConflict` runs with `exclude_id` set to this booking's
id and no other non-cancelled booking of that event type and date overlaps
its interval. -/
theorem updateBooking_self_exclusion (db : DB) (id : Nat) (u : BookingUpdate)
    (b : Booking)
    (hfind : db.bookings.find? (fun x => x.id == id) = some b)
    (hE : u.event_type_id.getD b.event_type_id = b.event_type_id)
    (hD : u.date.getD b.date = b.date)
    (hS : u.start_time.getD b.start_time = b.start_time)
    (hT : u.end_time.getD b.end_time = b.end_time)
    (hb : b.start_time < b.end_time)
    (hstore : ∀ x ∈ db.bookings, x.start_time < x.end_time)
    (hnoov : ∀ x ∈ db.bookings, x.id ≠ b.id → x.event_type_id = b.event_type_id →
      x.date = b.date → x.booking_status ≠ "cancelled" →
      ¬ (x.start_time < b.end_time ∧ b.start_time < x.end_time)) :
    errStatus (BookingsService.updateBooking db id u).2 ≠ some 409 := by
  have hid_b : b.id = id := by
    have := List.find?_some hfind
    simpa using this
  have hchk : checkConflict db.bookings (u.event_type_id.getD b.event_type_id)
      (u.date.getD b.date) (u.start_time.getD b.start_time)
      (u.end_time.getD b.end_time) (some id) = false := by
    rw [hE, hD, hS, hT, ← Bool.not_eq_true]
    intro hc
    rw [checkConflict_iff_overlap db.bookings b.event_type_id b.date
      b.start_time b.end_time (some id) hb hstore] at hc
    obtain ⟨x, hx, h1, h2, h3, hex, h5, h6⟩ := hc
    have hxid : x.id ≠ b.id := by
      rw [hid_b]
      exact hex id rfl
    exact hnoov x hx hxid h1 h2 h3 ⟨h6, h5⟩
  unfold BookingsService.updateBooking
  split
  · next heq =>
    rw [hfind] at heq
    cases heq
  · next existing heq =>
    rw [hfind] at heq
    injection heq with hex
    subst hex
    rw [hchk, Bool.and_false]
    split
    · next hff => cases hff
    · split
      · simp [errStatus]
      · split <;> simp [errStatus]

/-- The C9 witness payload: re-submit the booking's own start time. -/
def wSelfUpd : BookingUpdate := { start_time := some 10 }

/-- Witness for C9: re-submitting a booking's own time range is not a
conflict. -/
theorem updateBooking_self_exclusion_witness :
    errStatus (BookingsService.updateBooking wDb 1 wSelfUpd).2 ≠ some 409 :=
  updateBooking_self_exclusion wDb 1 wSelfUpd wBooking (by decide) rfl rfl rfl
    rfl (by decide) (by decide) (by decide)

/-- An event type matching the probe slug only by name, inserted first. -/
def c10ByName : EventType :=
  { id := 1, name := "demo", description := none, duration := 30
    url_slug := "other-slug", user_id := none, availability_id := none }

/-- An event type whose `url_slug` is the probe slug, inserted second. -/
def c10BySlug : EventType :=
  { id := 2, name := "second", description := none, duration := 45
    url_slug := "demo", user_id := none, availability_id := none }

/-- The state holding both event types. -/
def c10Db : DB :=
  { bookings := [], eventTypes := [c10ByName, c10BySlug], availabilities := []
    intervals := [], nextBookingId := 1, nextEventTypeId := 3
    nextAvailabilityId := 1, nextIntervalId := 1 }

/-- C10: the single `url_slug = $1 OR name = $1` query gives `url_slug` no
precedence — with an earlier row matching only by name and a later row
whose `url_slug` equals the probe, `findBySlug` returns the name-matching
row, contradicting the documented url_slug-first behaviour. -/
theorem findBySlug_no_slug_precedence :
    EventTypeModel.findBySlug c10Db "demo" = some c10ByName ∧
    c10BySlug ∈ c10Db.eventTypes ∧ c10BySlug.url_slug = "demo" ∧
    c10ByName.url_slug ≠ "demo" :=
  ⟨rfl, by decide, rfl, by decide⟩

end Cal
